import Mathlib

/-!
Shallow embedding of `mylib.c` (25-ffi-c-interop), covering the parts the
claims are about: the error-code taxonomy, the three callback registries
(simple, with-data, managed), `c_divide`, and the opaque `db_connection`
lifecycle (`db_open` / `db_execute` / `db_get_last_error` / `db_close`).

Modelling conventions:
  * C pointers (function pointers `callback_with_data_t`, `void*` user data)
    are modelled as `Option Nat`: `none` is the NULL pointer, `some n` a
    distinct non-null address.
  * `int32_t` values are modelled as `Int`; overflow is out of scope per the
    spec ("bounded only by integer overflow, treated as out of scope").
  * The mutable global managed-callback table (`managed_callbacks[16]` plus
    `next_handle`) is modelled as an explicit state `ManagedRegistry` threaded
    through the operations.
  * Triggering callbacks cannot call real C functions, so a trigger is
    modelled by the list of invocations it performs, in the order the loop
    performs them: one `(callback, user_data, value)` triple per call.
  * `db_connection*` arguments are `Option db_connection` (`none` = NULL);
    in-place mutation becomes returning the updated connection.
-/

namespace Mylib

/-- Error code `SUCCESS` (0) from `mylib.h`. -/
def SUCCESS : Int := 0

/-- Error code `ERROR_NULL_POINTER` (-1) from `mylib.h`. -/
def ERROR_NULL_POINTER : Int := -1

/-- Error code `ERROR_INVALID_INPUT` (-2) from `mylib.h`. -/
def ERROR_INVALID_INPUT : Int := -2

/-- Error code `ERROR_COMPUTATION_FAILED` (-3) from `mylib.h`. -/
def ERROR_COMPUTATION_FAILED : Int := -3

/-- Capacity `MAX_CALLBACKS` of every callback table. -/
def MAX_CALLBACKS : Nat := 16

/-- One slot of the managed callback table: C struct `managed_callback_t`
`{int32_t handle; callback_with_data_t callback; void* user_data; int active;}`. -/
structure managed_callback_t where
  handle : Int
  callback : Option Nat
  user_data : Option Nat
  active : Bool
deriving DecidableEq

/-- The zero-initialised slot (C static storage zero-initialises the array). -/
def emptySlot : managed_callback_t :=
  { handle := 0, callback := none, user_data := none, active := false }

/-- The global state of the managed registry: the array
`static managed_callback_t managed_callbacks[MAX_CALLBACKS]` and the counter
`static int32_t next_handle`. -/
structure ManagedRegistry where
  managed_callbacks : List managed_callback_t
  next_handle : Int
deriving DecidableEq

/-- The state at program start: 16 zeroed slots, `next_handle = 1`. -/
def initialRegistry : ManagedRegistry :=
  { managed_callbacks := List.replicate MAX_CALLBACKS emptySlot, next_handle := 1 }

/-- The scan loop of `register_managed_callback`: walk the slots in index
order; at the first slot with `!active`, store `{handle := h, callback,
user_data, active := 1}` and stop; `none` when every slot is active. -/
def regFill (h : Int) (cb ud : Option Nat) :
    List managed_callback_t → Option (List managed_callback_t)
  | [] => none
  | slot :: rest =>
    if slot.active then
      match regFill h cb ud rest with
      | some rest' => some (slot :: rest')
      | none => none
    else
      some ({ handle := h, callback := cb, user_data := ud, active := true } :: rest)

/-- `register_managed_callback(callback, user_data)`: first-fit scan for an
inactive slot; on success the slot receives `next_handle` (post-incremented)
and the handle is returned (`some`); with no free slot the state is unchanged
and the result is `none`, modelling the C return value `-1`. -/
def register_managed_callback (s : ManagedRegistry) (cb ud : Option Nat) :
    ManagedRegistry × Option Int :=
  match regFill s.next_handle cb ud s.managed_callbacks with
  | some slots' =>
    ({ managed_callbacks := slots', next_handle := s.next_handle + 1 },
     some s.next_handle)
  | none => (s, none)

/-- The `int32_t` actually returned by `register_managed_callback`: the handle
on success, `-1` ("No space") on failure. -/
def register_managed_callback_ret (s : ManagedRegistry) (cb ud : Option Nat) : Int :=
  ((register_managed_callback s cb ud).2).getD (-1)

/-- The scan loop of `unregister_managed_callback`: at the first slot with
`active && handle == h`, set `active = 0` and return; the other fields of the
slot are not touched, and no further slot is visited. -/
def unregAux (h : Int) : List managed_callback_t → List managed_callback_t
  | [] => []
  | slot :: rest =>
    if slot.active && slot.handle == h then
      { slot with active := false } :: rest
    else
      slot :: unregAux h rest

/-- `unregister_managed_callback(handle)` on the registry state. -/
def unregister_managed_callback (s : ManagedRegistry) (h : Int) : ManagedRegistry :=
  { managed_callbacks := unregAux h s.managed_callbacks, next_handle := s.next_handle }

/-- The loop of `trigger_managed_callbacks(value)`: visit slots in index
order and, for each active one, invoke `callback(user_data, value)`.  The
result is the list of invocations performed, in order. -/
def triggerAux (v : Int) : List managed_callback_t → List (Option Nat × Option Nat × Int)
  | [] => []
  | slot :: rest =>
    if slot.active then
      (slot.callback, slot.user_data, v) :: triggerAux v rest
    else
      triggerAux v rest

/-- `trigger_managed_callbacks(value)` on the registry state. -/
def trigger_managed_callbacks (s : ManagedRegistry) (v : Int) :
    List (Option Nat × Option Nat × Int) :=
  triggerAux v s.managed_callbacks

/-- `register_simple_callback`: appends only when the count is below
`MAX_CALLBACKS` and the callback is non-NULL; otherwise a silent no-op.
The state is the list of stored callbacks (the first `count` array cells). -/
def register_simple_callback (cbs : List (Option Nat)) (cb : Option Nat) :
    List (Option Nat) :=
  if cbs.length < MAX_CALLBACKS ∧ cb ≠ none then cbs ++ [cb] else cbs

/-- One entry of the with-data table: C struct `callback_entry_t`. -/
structure callback_entry_t where
  callback : Option Nat
  user_data : Option Nat
deriving DecidableEq

/-- `register_callback_with_data`: appends only when the count is below
`MAX_CALLBACKS` and the callback is non-NULL; otherwise a silent no-op. -/
def register_callback_with_data (entries : List callback_entry_t)
    (cb ud : Option Nat) : List callback_entry_t :=
  if entries.length < MAX_CALLBACKS ∧ cb ≠ none then
    entries ++ [{ callback := cb, user_data := ud }]
  else entries

/-- One call into the managed registry's public interface. -/
inductive RegOp where
  | doRegister : Option Nat → Option Nat → RegOp
  | doUnregister : Int → RegOp
  | doTrigger : Int → RegOp

/-- The registry state after one public call (`trigger` reads but does not
change the table). -/
def stepOp (s : ManagedRegistry) : RegOp → ManagedRegistry
  | RegOp.doRegister cb ud => (register_managed_callback s cb ud).1
  | RegOp.doUnregister h => unregister_managed_callback s h
  | RegOp.doTrigger _ => s

/-- The handles returned by the successful `register_managed_callback` calls
of a call sequence, in call order. -/
def issuedHandles : ManagedRegistry → List RegOp → List Int
  | _, [] => []
  | s, op :: ops =>
    (match op with
     | RegOp.doRegister cb ud => ((register_managed_callback s cb ud).2).toList
     | RegOp.doUnregister _ => []
     | RegOp.doTrigger _ => []) ++ issuedHandles (stepOp s op) ops

/-- The registry states a process can reach from start-up through the public
interface. -/
inductive Reachable : ManagedRegistry → Prop where
  | init : Reachable initialRegistry
  | step (s : ManagedRegistry) (op : RegOp) : Reachable s → Reachable (stepOp s op)

/-- The indices of the inactive slots, in ascending order (so the head of
this list is the minimum index of any inactive slot). -/
def inactiveIndices (slots : List managed_callback_t) : List Nat :=
  (List.range slots.length).filter (fun i => !(slots.getD i emptySlot).active)

/-- The index the first-fit scan settles on: the first index whose slot is
inactive. -/
def firstInactive : List managed_callback_t → Option Nat
  | [] => none
  | slot :: rest =>
    if slot.active then (firstInactive rest).map (· + 1) else some 0

/-- `strncmp`-style check that `needle` occurs at the very start of `hay`. -/
def charsBeginWith : List Char → List Char → Bool
  | [], _ => true
  | _ :: _, [] => false
  | p :: ps, c :: cs => p == c && charsBeginWith ps cs

/-- `strstr(hay, needle) != NULL`: `needle` occurs somewhere in `hay`. -/
def charsHaveSub (needle : List Char) : List Char → Bool
  | [] => charsBeginWith needle []
  | c :: cs => charsBeginWith needle (c :: cs) || charsHaveSub needle cs

/-- The simulated-failure test of `db_execute`:
`strstr(sql, "ERROR") != NULL`. -/
def sqlHasErrorMarker (sql : String) : Bool :=
  charsHaveSub "ERROR".toList sql.toList

/-- The opaque C struct `db_connection` (`char* path; int connected;
char last_error[256]; int query_count;`). -/
structure db_connection where
  path : String
  connected : Bool
  last_error : String
  query_count : Int
deriving DecidableEq

/-- `db_open(path)`: NULL path gives NULL; otherwise a fresh connection with
`connected = 1`, empty `last_error`, zero `query_count`.  (The C `malloc`
failure path, which also returns NULL, is out of scope: the model allocates.) -/
def db_open (path : Option String) : Option db_connection :=
  match path with
  | none => none
  | some p =>
    some { path := p, connected := true, last_error := "", query_count := 0 }

/-- `db_execute(conn, sql)`: NULL checks first, then the `connected` check,
then the query counter increment, then the simulated-failure branch.  The
first component is the connection after the call (the C code mutates it in
place), the second the returned `int32_t`. -/
def db_execute (conn : Option db_connection) (sql : Option String) :
    Option db_connection × Int :=
  match conn, sql with
  | none, _ => (none, ERROR_NULL_POINTER)
  | some c, none => (some c, ERROR_NULL_POINTER)
  | some c, some q =>
    if !c.connected then
      (some { c with last_error := "Not connected" }, ERROR_INVALID_INPUT)
    else
      let c2 := { c with query_count := c.query_count + 1 }
      if sqlHasErrorMarker q then
        (some { c2 with last_error := "Simulated query error" },
         ERROR_COMPUTATION_FAILED)
      else
        (some { c2 with last_error := "" }, SUCCESS)

/-- `db_get_last_error(conn)`. -/
def db_get_last_error (conn : Option db_connection) : String :=
  match conn with
  | none => "Null connection"
  | some c => c.last_error

/-- `db_close(conn)`: frees the connection object, so no connection value
survives the call (in particular, `close` never produces a connection whose
`connected` flag is 0). -/
def db_close (_ : Option db_connection) : Option db_connection := none

/-- A sequence of `db_execute` calls on one connection: the final connection
state and the list of returned codes, in call order. -/
def db_execute_seq : db_connection → List (Option String) → db_connection × List Int
  | c, [] => (c, [])
  | c, sql :: rest =>
    let r := db_execute (some c) sql
    let c' := r.1.getD c
    let tail := db_execute_seq c' rest
    (tail.1, r.2 :: tail.2)

/-- `c_divide(a, b, result)`: the out-parameter is `Option Int` (`none` =
NULL pointer, `some r` = a location currently holding `r`); the first
component is the location's content after the call, the second the returned
code.  `Int.tdiv` is C's truncated signed division. -/
def c_divide (a b : Int) (result : Option Int) : Option Int × Int :=
  match result with
  | none => (none, ERROR_NULL_POINTER)
  | some r =>
    if b = 0 then
      (some r, ERROR_INVALID_INPUT)
    else
      (some (Int.tdiv a b), SUCCESS)

/-! ### Concrete states used by claim scenarios and witnesses -/

/-- The state after the spec's 3-register / 1-revoke / 1-register scenario:
register callbacks 1, 2, 3 (handles 1, 2, 3), unregister handle 2, register
callback 4 (which reuses slot 1 and receives handle 4). -/
def scenarioState : ManagedRegistry :=
  (register_managed_callback
    (unregister_managed_callback
      (register_managed_callback
        (register_managed_callback
          (register_managed_callback initialRegistry (some 1) (some 11)).1
          (some 2) (some 12)).1
        (some 3) (some 13)).1
      2)
    (some 4) (some 14)).1

/-- A table state with all 16 slots active (handles 1..16, counter at 17). -/
def fullRegistry : ManagedRegistry :=
  { managed_callbacks :=
      (List.range MAX_CALLBACKS).map
        (fun i =>
          { handle := Int.ofNat i + 1, callback := some i, user_data := some i,
            active := true }),
    next_handle := 17 }

/-- A three-slot table whose slot 0 is active and whose slots 1 and 2 are
free: two inactive slots, minimum inactive index 1. -/
def demoSlots : List managed_callback_t :=
  [{ handle := 1, callback := some 1, user_data := some 11, active := true },
   emptySlot, emptySlot]

/-- The state after registering callback 5 with context 7 (handle 1) and then
unregistering handle 1. -/
def unregDemo : ManagedRegistry :=
  unregister_managed_callback
    (register_managed_callback initialRegistry (some 5) (some 7)).1 1

/-- A single active slot holding callback 5 with context 7 under handle 1. -/
def slot571 : managed_callback_t :=
  { handle := 1, callback := some 5, user_data := some 7, active := true }

/-! ### Helper lemmas about the managed registry -/

theorem getD_set_self {α : Type} (l : List α) (i : Nat) (e d : α)
    (hi : i < l.length) : (l.set i e).getD i d = e := by
  induction l generalizing i with
  | nil => simp at hi
  | cons a l ih =>
    cases i with
    | zero => rfl
    | succ i => simpa using ih i (by simpa using hi)

theorem getD_set_other {α : Type} (l : List α) (i j : Nat) (e d : α)
    (hij : i ≠ j) : (l.set i e).getD j d = l.getD j d := by
  induction l generalizing i j with
  | nil => rfl
  | cons a l ih =>
    cases i with
    | zero =>
      cases j with
      | zero => exact absurd rfl hij
      | succ j => rfl
    | succ i =>
      cases j with
      | zero => rfl
      | succ j => simpa using ih i j (by omega)

theorem regFill_eq_firstInactive (h : Int) (cb ud : Option Nat)
    (slots : List managed_callback_t) :
    regFill h cb ud slots =
      (firstInactive slots).map
        (fun i => slots.set i
          { handle := h, callback := cb, user_data := ud, active := true }) := by
  induction slots with
  | nil => rfl
  | cons slot rest ih =>
    by_cases ha : slot.active
    · cases hfi : firstInactive rest with
      | none => simp [regFill, firstInactive, ha, ih, hfi]
      | some k => simp [regFill, firstInactive, ha, ih, hfi]
    · simp [regFill, firstInactive, ha]

theorem firstInactive_lt_length (slots : List managed_callback_t) (i : Nat)
    (hfi : firstInactive slots = some i) : i < slots.length := by
  induction slots generalizing i with
  | nil => simp [firstInactive] at hfi
  | cons slot rest ih =>
    cases ha : slot.active with
    | true =>
      cases hfr : firstInactive rest with
      | none => simp [firstInactive, ha, hfr] at hfi
      | some k =>
        simp only [firstInactive, ha, hfr, if_true, Option.map_some',
          Option.some.injEq] at hfi
        have hk := ih k hfr
        simp only [List.length_cons]
        omega
    | false =>
      simp only [firstInactive, ha, Bool.false_eq_true, if_false,
        Option.some.injEq] at hfi
      simp only [List.length_cons]
      omega

theorem firstInactive_inactive (slots : List managed_callback_t) (i : Nat)
    (hfi : firstInactive slots = some i) :
    (slots.getD i emptySlot).active = false := by
  induction slots generalizing i with
  | nil => simp [firstInactive] at hfi
  | cons slot rest ih =>
    cases ha : slot.active with
    | true =>
      cases hfr : firstInactive rest with
      | none => simp [firstInactive, ha, hfr] at hfi
      | some k =>
        simp only [firstInactive, ha, hfr, if_true, Option.map_some',
          Option.some.injEq] at hfi
        obtain rfl : i = k + 1 := by omega
        simpa using ih k hfr
    | false =>
      simp only [firstInactive, ha, Bool.false_eq_true, if_false,
        Option.some.injEq] at hfi
      obtain rfl : i = 0 := by omega
      simpa using ha

theorem firstInactive_min (slots : List managed_callback_t) (i : Nat)
    (hfi : firstInactive slots = some i) :
    ∀ j, j < i → (slots.getD j emptySlot).active = true := by
  induction slots generalizing i with
  | nil => simp [firstInactive] at hfi
  | cons slot rest ih =>
    cases ha : slot.active with
    | true =>
      cases hfr : firstInactive rest with
      | none => simp [firstInactive, ha, hfr] at hfi
      | some k =>
        simp only [firstInactive, ha, hfr, if_true, Option.map_some',
          Option.some.injEq] at hfi
        obtain rfl : i = k + 1 := by omega
        intro j hj
        cases j with
        | zero => simpa using ha
        | succ j => simpa using ih k hfr j (by omega)
    | false =>
      simp only [firstInactive, ha, Bool.false_eq_true, if_false,
        Option.some.injEq] at hfi
      obtain rfl : i = 0 := by omega
      intro j hj
      omega

theorem mem_inactiveIndices (slots : List managed_callback_t) (j : Nat) :
    j ∈ inactiveIndices slots ↔
      j < slots.length ∧ (slots.getD j emptySlot).active = false := by
  simp [inactiveIndices, List.mem_filter, List.mem_range]

theorem regFill_of_all_active (h : Int) (cb ud : Option Nat)
    (slots : List managed_callback_t)
    (hfull : ∀ slot ∈ slots, slot.active = true) :
    regFill h cb ud slots = none := by
  induction slots with
  | nil => rfl
  | cons slot rest ih =>
    have ha : slot.active = true := hfull slot (List.mem_cons_self _ _)
    have hr : regFill h cb ud rest = none :=
      ih (fun s hs => hfull s (List.mem_cons_of_mem _ hs))
    simp [regFill, ha, hr]

theorem regFill_of_exists_inactive (h : Int) (cb ud : Option Nat)
    (slots : List managed_callback_t)
    (hfree : ∃ slot ∈ slots, slot.active = false) :
    ∃ slots', regFill h cb ud slots = some slots' ∧
      ({ handle := h, callback := cb, user_data := ud, active := true } :
        managed_callback_t) ∈ slots' := by
  induction slots with
  | nil => simp at hfree
  | cons slot rest ih =>
    by_cases ha : slot.active
    · have hfree' : ∃ s ∈ rest, s.active = false := by
        rcases hfree with ⟨s, hs, hsa⟩
        rcases List.mem_cons.mp hs with rfl | hs'
        · rw [hsa] at ha; exact absurd ha (by simp)
        · exact ⟨s, hs', hsa⟩
      rcases ih hfree' with ⟨rest', hr, hmem⟩
      exact ⟨slot :: rest', by simp [regFill, ha, hr], List.mem_cons_of_mem _ hmem⟩
    · refine ⟨{ handle := h, callback := cb, user_data := ud, active := true } :: rest,
        ?_, List.mem_cons_self _ _⟩
      simp [regFill, ha]

theorem unregAux_not_found (h : Int) (slots : List managed_callback_t)
    (hno : ∀ slot ∈ slots, ¬(slot.active = true ∧ slot.handle = h)) :
    unregAux h slots = slots := by
  induction slots with
  | nil => rfl
  | cons slot rest ih =>
    have h1 : ¬(slot.active = true ∧ slot.handle = h) :=
      hno slot (List.mem_cons_self _ _)
    have hcond : (slot.active && slot.handle == h) = false := by
      by_cases ha : slot.active = true
      · have : slot.handle ≠ h := fun hh => h1 ⟨ha, hh⟩
        simp [ha, this]
      · simp [eq_false_of_ne_true ha]
    simp [unregAux, hcond, ih (fun s hs => hno s (List.mem_cons_of_mem _ hs))]

theorem unregAux_found (h : Int) (pre post : List managed_callback_t)
    (m : managed_callback_t)
    (hact : m.active = true) (hh : m.handle = h)
    (hpre : ∀ slot ∈ pre, ¬(slot.active = true ∧ slot.handle = h)) :
    unregAux h (pre ++ m :: post) = pre ++ { m with active := false } :: post := by
  induction pre with
  | nil => simp [unregAux, hact, hh]
  | cons p pre ih =>
    have h1 : ¬(p.active = true ∧ p.handle = h) := hpre p (List.mem_cons_self _ _)
    have hcond : (p.active && p.handle == h) = false := by
      by_cases ha : p.active = true
      · have : p.handle ≠ h := fun hhh => h1 ⟨ha, hhh⟩
        simp [ha, this]
      · simp [eq_false_of_ne_true ha]
    simp [unregAux, hcond, ih (fun s hs => hpre s (List.mem_cons_of_mem _ hs))]

theorem triggerAux_append (v : Int) (l1 l2 : List managed_callback_t) :
    triggerAux v (l1 ++ l2) = triggerAux v l1 ++ triggerAux v l2 := by
  induction l1 with
  | nil => rfl
  | cons slot rest ih =>
    by_cases ha : slot.active <;> simp [triggerAux, ha, ih]

theorem triggerAux_eq_filter_map (v : Int) (slots : List managed_callback_t) :
    triggerAux v slots =
      (slots.filter (fun slot => slot.active)).map
        (fun slot => (slot.callback, slot.user_data, v)) := by
  induction slots with
  | nil => rfl
  | cons slot rest ih =>
    by_cases ha : slot.active <;> simp [triggerAux, List.filter_cons, ha, ih]

theorem register_snd_cases (s : ManagedRegistry) (cb ud : Option Nat) :
    (register_managed_callback s cb ud).2 = some s.next_handle ∨
    ((register_managed_callback s cb ud).2 = none ∧
      (register_managed_callback s cb ud).1 = s) := by
  cases hr : regFill s.next_handle cb ud s.managed_callbacks with
  | some slots' => left; simp [register_managed_callback, hr]
  | none => right; simp [register_managed_callback, hr]

theorem stepOp_next_handle (s : ManagedRegistry) (op : RegOp) :
    s.next_handle ≤ (stepOp s op).next_handle := by
  cases op with
  | doRegister cb ud =>
    cases hr : regFill s.next_handle cb ud s.managed_callbacks with
    | some slots' =>
      simp only [stepOp, register_managed_callback, hr]
      omega
    | none => simp [stepOp, register_managed_callback, hr]
  | doUnregister h => exact le_refl _
  | doTrigger v => exact le_refl _

theorem issuedHandles_lower_bound (ops : List RegOp) :
    ∀ (s : ManagedRegistry) (x : Int), x ∈ issuedHandles s ops →
      s.next_handle ≤ x := by
  induction ops with
  | nil => intro s x hx; simp [issuedHandles] at hx
  | cons op ops ih =>
    intro s x hx
    cases op with
    | doRegister cb ud =>
      cases hr : regFill s.next_handle cb ud s.managed_callbacks with
      | some slots' =>
        simp only [issuedHandles, stepOp, register_managed_callback, hr,
          Option.toList_some, List.singleton_append, List.mem_cons] at hx
        rcases hx with rfl | hx
        · exact le_refl _
        · have hlow : s.next_handle + 1 ≤ x := ih _ _ hx
          omega
      | none =>
        simp only [issuedHandles, stepOp, register_managed_callback, hr,
          Option.toList_none, List.nil_append] at hx
        exact ih _ _ hx
    | doUnregister h =>
      simp only [issuedHandles, stepOp, List.nil_append] at hx
      exact ih (unregister_managed_callback s h) _ hx
    | doTrigger v =>
      simp only [issuedHandles, stepOp, List.nil_append] at hx
      exact ih s _ hx

theorem issuedHandles_sorted (ops : List RegOp) :
    ∀ s : ManagedRegistry, List.Pairwise (· < ·) (issuedHandles s ops) := by
  induction ops with
  | nil => intro s; simp [issuedHandles]
  | cons op ops ih =>
    intro s
    cases op with
    | doRegister cb ud =>
      cases hr : regFill s.next_handle cb ud s.managed_callbacks with
      | some slots' =>
        simp only [issuedHandles, stepOp, register_managed_callback, hr,
          Option.toList_some, List.singleton_append]
        refine List.pairwise_cons.mpr ⟨?_, ih _⟩
        intro y hy
        have hlow : s.next_handle + 1 ≤ y := issuedHandles_lower_bound ops _ y hy
        omega
      | none =>
        simp only [issuedHandles, stepOp, register_managed_callback, hr,
          Option.toList_none, List.nil_append]
        exact ih _
    | doUnregister h =>
      simp only [issuedHandles, stepOp, List.nil_append]
      exact ih _
    | doTrigger v =>
      simp only [issuedHandles, stepOp, List.nil_append]
      exact ih _

/-! ### The claims -/

/-- Claim C1: over any sequence of calls into the managed registry from
process start, the handles returned by the successful
`register_managed_callback` calls are strictly increasing in call order
(hence pairwise distinct), so no handle value is ever issued twice during the
process lifetime (handles are modelled as unbounded integers: overflow is out
of scope). -/
theorem register_managed_callback_handles_strictly_increasing
    (ops : List RegOp) :
    List.Pairwise (· < ·) (issuedHandles initialRegistry ops) ∧
    (issuedHandles initialRegistry ops).Nodup :=
  ⟨issuedHandles_sorted ops initialRegistry,
   (issuedHandles_sorted ops initialRegistry).imp ne_of_lt⟩

/-- Claim C2: `trigger_managed_callbacks(value)` invokes exactly the
callbacks of the active slots, each with its own stored context and the given
value, in ascending slot-index order; concretely, after registering callbacks
1, 2, 3, revoking handle 2 and registering callback 4 (which reuses slot 1),
triggering with 99 invokes callback 4 (the newest registration) before
callback 3 (an older, still-active entry in a higher slot). -/
theorem trigger_managed_callbacks_slot_order :
    (∀ (s : ManagedRegistry) (v : Int),
        trigger_managed_callbacks s v =
          (s.managed_callbacks.filter (fun slot => slot.active)).map
            (fun slot => (slot.callback, slot.user_data, v))) ∧
    trigger_managed_callbacks scenarioState 99 =
      [(some 1, some 11, 99), (some 4, some 14, 99), (some 3, some 13, 99)] :=
  ⟨fun s v => triggerAux_eq_filter_map v s.managed_callbacks, by decide⟩

/-- Claim C3: when every slot of the table is active,
`register_managed_callback` fails — the returned `int32_t` is `-1` — and
mutates nothing: the whole state (every slot's fields and the handle counter)
is exactly as before the call, so all previously issued handles remain
valid. -/
theorem register_managed_callback_full_no_mutation
    (s : ManagedRegistry) (cb ud : Option Nat)
    (hfull : ∀ slot ∈ s.managed_callbacks, slot.active = true) :
    register_managed_callback s cb ud = (s, none) ∧
    register_managed_callback_ret s cb ud = -1 := by
  have h0 : regFill s.next_handle cb ud s.managed_callbacks = none :=
    regFill_of_all_active _ _ _ _ hfull
  constructor
  · simp [register_managed_callback, h0]
  · simp [register_managed_callback_ret, register_managed_callback, h0]

/-- Witness for C3: the 16-slot all-active table rejects a 17th concurrent
registration and is left untouched. -/
theorem register_managed_callback_full_no_mutation_witness :
    register_managed_callback fullRegistry (some 99) none = (fullRegistry, none) ∧
    register_managed_callback_ret fullRegistry (some 99) none = -1 :=
  register_managed_callback_full_no_mutation fullRegistry (some 99) none (by decide)

/-- Counterexample to claim C4 as stated: there is NO reachable table state
(with at least two inactive slots, or otherwise) on which a successful
`register_managed_callback` stores the new entry at an index other than the
minimum index among the inactive slots — the first-fit scan from index 0
always settles on the lowest-index inactive slot. -/
theorem register_managed_callback_never_skips_min_index :
    ¬ ∃ (s : ManagedRegistry) (cb ud : Option Nat) (i : Nat),
        Reachable s ∧
        2 ≤ (inactiveIndices s.managed_callbacks).length ∧
        regFill s.next_handle cb ud s.managed_callbacks =
          some (s.managed_callbacks.set i
            { handle := s.next_handle, callback := cb, user_data := ud,
              active := true }) ∧
        ∃ j ∈ inactiveIndices s.managed_callbacks, j < i := by
  rintro ⟨s, cb, ud, i, -, -, hfill, j, hj, hlt⟩
  rw [regFill_eq_firstInactive] at hfill
  cases hfi : firstInactive s.managed_callbacks with
  | none => rw [hfi] at hfill; simp at hfill
  | some i0 =>
    rw [hfi] at hfill
    simp only [Option.map_some', Option.some.injEq] at hfill
    have hlen : i0 < s.managed_callbacks.length := firstInactive_lt_length _ _ hfi
    have hina : (s.managed_callbacks.getD i0 emptySlot).active = false :=
      firstInactive_inactive _ _ hfi
    by_cases hii : i = i0
    · subst hii
      have hjina := (mem_inactiveIndices _ _).mp hj
      have := firstInactive_min _ _ hfi j hlt
      rw [hjina.2] at this
      exact absurd this (by simp)
    · have h1 : ((s.managed_callbacks.set i0
          { handle := s.next_handle, callback := cb, user_data := ud,
            active := true }).getD i0 emptySlot) =
          { handle := s.next_handle, callback := cb, user_data := ud,
            active := true } :=
        getD_set_self _ _ _ _ hlen
      rw [hfill] at h1
      rw [getD_set_other _ _ _ _ _ hii] at h1
      have : (s.managed_callbacks.getD i0 emptySlot).active = true := by
        rw [h1]
      rw [hina] at this
      exact absurd this (by simp)

/-- Amended claim C4: `register_managed_callback` selects its target slot by
a first-fit linear scan from index 0, and that choice IS always the
lowest-index inactive slot: whenever an inactive slot exists, the successful
registration stores the new entry at the minimum index among the inactive
slots. -/
theorem register_managed_callback_first_fit_is_min
    (slots : List managed_callback_t) (h : Int) (cb ud : Option Nat) (i : Nat)
    (hfi : firstInactive slots = some i) :
    regFill h cb ud slots =
      some (slots.set i
        { handle := h, callback := cb, user_data := ud, active := true }) ∧
    i ∈ inactiveIndices slots ∧
    ∀ j ∈ inactiveIndices slots, i ≤ j := by
  refine ⟨?_, ?_, ?_⟩
  · rw [regFill_eq_firstInactive, hfi]
    rfl
  · exact (mem_inactiveIndices _ _).mpr
      ⟨firstInactive_lt_length _ _ hfi, firstInactive_inactive _ _ hfi⟩
  · intro j hj
    by_contra hji
    have hja : (slots.getD j emptySlot).active = true :=
      firstInactive_min _ _ hfi j (by omega)
    have := ((mem_inactiveIndices _ _).mp hj).2
    rw [this] at hja
    exact absurd hja (by simp)

/-- Witness for the amended C4: on a table whose inactive slots are indices 1
and 2, registration stores at index 1, the minimum inactive index. -/
theorem register_managed_callback_first_fit_is_min_witness :
    regFill 5 (some 9) none demoSlots =
      some (demoSlots.set 1
        { handle := 5, callback := some 9, user_data := none, active := true }) ∧
    1 ∈ inactiveIndices demoSlots ∧
    ∀ j ∈ inactiveIndices demoSlots, 1 ≤ j :=
  register_managed_callback_first_fit_is_min demoSlots 5 (some 9) none 1 (by decide)

/-- Counterexample to claim C5 as stated: after registering callback 5 with
context 7 (handle 1) and unregistering handle 1, the matched slot is marked
inactive but its stored callback and context references are NOT cleared —
they still hold the registered values. -/
theorem unregister_managed_callback_keeps_references :
    ((unregDemo.managed_callbacks.getD 0 emptySlot).active = false ∧
     (unregDemo.managed_callbacks.getD 0 emptySlot).callback = some 5 ∧
     (unregDemo.managed_callbacks.getD 0 emptySlot).user_data = some 7) ∧
    ¬ ((unregDemo.managed_callbacks.getD 0 emptySlot).callback = none ∧
       (unregDemo.managed_callbacks.getD 0 emptySlot).user_data = none) := by
  decide

/-- Amended claim C5: when `unregister_managed_callback(handle)` finds an
active slot whose handle matches (the first such slot), it marks that slot
inactive and leaves the slot's stored callback and context references in
place — the fields are not cleared. -/
theorem unregister_managed_callback_marks_inactive
    (pre post : List managed_callback_t) (m : managed_callback_t) (h : Int)
    (hact : m.active = true) (hh : m.handle = h)
    (hpre : ∀ slot ∈ pre, ¬(slot.active = true ∧ slot.handle = h)) :
    unregAux h (pre ++ m :: post) =
      pre ++ { m with active := false } :: post :=
  unregAux_found h pre post m hact hh hpre

/-- Witness for the amended C5: unregistering the one active slot flips its
`active` flag and keeps callback 5 and context 7 stored. -/
theorem unregister_managed_callback_marks_inactive_witness :
    unregAux 1 ([] ++ slot571 :: []) =
      [] ++ { slot571 with active := false } :: [] :=
  unregister_managed_callback_marks_inactive [] [] slot571 1 rfl rfl (by decide)

/-- Claim C6: `unregister_managed_callback` is idempotent and total over
handles.  First conjunct: on any table state carrying no active slot with the
given handle (a stale, unknown, or already-revoked handle), the call changes
nothing (and the C function returns `void`, so no error is signalled).
Second conjunct: when the handle is found (the table splits as
`pre ++ m :: post` with `m` the first active match), a second call with the
same handle is a no-op, and a subsequent trigger performs exactly the
invocations of the remaining slots — never the revoked one.  Last conjuncts:
the concrete register/unregister scenario re-unregistered and triggered. -/
theorem unregister_managed_callback_idempotent :
    (∀ (slots : List managed_callback_t) (h : Int),
        (∀ slot ∈ slots, ¬(slot.active = true ∧ slot.handle = h)) →
        unregAux h slots = slots) ∧
    (∀ (pre post : List managed_callback_t) (m : managed_callback_t) (h v : Int),
        m.active = true → m.handle = h →
        (∀ slot ∈ pre, ¬(slot.active = true ∧ slot.handle = h)) →
        (∀ slot ∈ post, ¬(slot.active = true ∧ slot.handle = h)) →
        unregAux h (unregAux h (pre ++ m :: post)) =
          unregAux h (pre ++ m :: post) ∧
        triggerAux v (unregAux h (pre ++ m :: post)) =
          triggerAux v pre ++ triggerAux v post) ∧
    unregister_managed_callback unregDemo 1 = unregDemo ∧
    trigger_managed_callbacks unregDemo 5 = [] := by
  refine ⟨fun slots h hno => unregAux_not_found h slots hno, ?_, by decide, by decide⟩
  intro pre post m h v hact hh hpre hpost
  rw [unregAux_found h pre post m hact hh hpre]
  have hafter : ∀ slot ∈ pre ++ { m with active := false } :: post,
      ¬(slot.active = true ∧ slot.handle = h) := by
    intro slot hs
    rcases List.mem_append.mp hs with hs | hs
    · exact hpre slot hs
    · rcases List.mem_cons.mp hs with rfl | hs
      · rintro ⟨hsa, -⟩
        simp at hsa
      · exact hpost slot hs
  refine ⟨unregAux_not_found h _ hafter, ?_⟩
  rw [triggerAux_append]
  simp [triggerAux]

/-- Claim C7: the full case analysis of `db_execute`: NULL connection or NULL
command give `ERROR_NULL_POINTER` and change nothing; a present but
non-connected resource records "Not connected" and gives
`ERROR_INVALID_INPUT`; otherwise the query counter is incremented and the
command either contains the failure marker ("ERROR"), recording a non-empty
error and giving `ERROR_COMPUTATION_FAILED`, or does not, clearing
`last_error` and giving `SUCCESS`.  The last conjuncts check the spec's
concrete scenario on a fresh connection. -/
theorem db_execute_case_analysis :
    (∀ sql, db_execute none sql = (none, ERROR_NULL_POINTER)) ∧
    (∀ c : db_connection, db_execute (some c) none = (some c, ERROR_NULL_POINTER)) ∧
    (∀ (c : db_connection) (sql : String), c.connected = false →
        db_execute (some c) (some sql) =
          (some { c with last_error := "Not connected" }, ERROR_INVALID_INPUT)) ∧
    (∀ (c : db_connection) (sql : String), c.connected = true →
        sqlHasErrorMarker sql = true →
        ∃ c', db_execute (some c) (some sql) = (some c', ERROR_COMPUTATION_FAILED) ∧
          c'.query_count = c.query_count + 1 ∧ c'.last_error ≠ "") ∧
    (∀ (c : db_connection) (sql : String), c.connected = true →
        sqlHasErrorMarker sql = false →
        ∃ c', db_execute (some c) (some sql) = (some c', SUCCESS) ∧
          c'.query_count = c.query_count + 1 ∧ c'.last_error = "") ∧
    (db_execute (db_open (some "x")) (some "SELECT 1")).2 = SUCCESS ∧
    db_get_last_error (db_execute (db_open (some "x")) (some "SELECT 1")).1 = "" ∧
    (db_execute (db_open (some "x")) (some "DO ERROR")).2 = ERROR_COMPUTATION_FAILED ∧
    db_get_last_error (db_execute (db_open (some "x")) (some "DO ERROR")).1 ≠ "" := by
  refine ⟨fun sql => rfl, fun c => rfl, ?_, ?_, ?_, by decide, by decide, by decide,
    by decide⟩
  · intro c sql hc
    simp [db_execute, hc]
  · intro c sql hc hm
    refine ⟨{ c with
                query_count := c.query_count + 1,
                last_error := "Simulated query error" }, ?_, rfl,
      show ("Simulated query error" : String) ≠ "" by decide⟩
    simp [db_execute, hc, hm]
  · intro c sql hc hm
    refine ⟨{ c with query_count := c.query_count + 1, last_error := "" },
      ?_, rfl, rfl⟩
    simp [db_execute, hc, hm]

/-- Claim C8: for every pair of integers with a non-NULL output location,
`c_divide` returns `ERROR_INVALID_INPUT` (-2) on a zero divisor and leaves
the output location unwritten, and otherwise returns `SUCCESS` (0) with the
quotient written; in particular `c_divide(10, 2)` yields 5. -/
theorem c_divide_zero_divisor_check (a b r : Int) :
    ERROR_INVALID_INPUT = -2 ∧ SUCCESS = 0 ∧
    (b = 0 → c_divide a b (some r) = (some r, ERROR_INVALID_INPUT)) ∧
    (b ≠ 0 → c_divide a b (some r) = (some (Int.tdiv a b), SUCCESS)) ∧
    c_divide 10 2 (some 0) = (some 5, SUCCESS) := by
  refine ⟨rfl, rfl, ?_, ?_, by decide⟩
  · intro hb
    simp [c_divide, hb]
  · intro hb
    simp [c_divide, hb]

/-- One `db_execute` call on a connected resource keeps it connected and
never takes the `ERROR_INVALID_INPUT` ("Not connected") branch. -/
theorem db_execute_preserves_connected (c : db_connection) (sql : Option String)
    (hc : c.connected = true) :
    ∃ c' code, db_execute (some c) sql = (some c', code) ∧
      c'.connected = true ∧ code ≠ ERROR_INVALID_INPUT := by
  cases sql with
  | none => exact ⟨c, ERROR_NULL_POINTER, rfl, hc, by decide⟩
  | some q =>
    by_cases hm : sqlHasErrorMarker q
    · refine ⟨{ c with
                  query_count := c.query_count + 1,
                  last_error := "Simulated query error" },
        ERROR_COMPUTATION_FAILED, ?_, hc, by decide⟩
      simp [db_execute, hc, hm]
    · refine ⟨{ c with query_count := c.query_count + 1, last_error := "" },
        SUCCESS, ?_, hc, by decide⟩
      simp [db_execute, hc, hm]

/-- Claim C9: every connection created by `db_open` has its `connected` flag
set; `db_close` frees the object rather than producing one with the flag
cleared; and no sequence of `db_execute` calls (no close) ever clears the
flag or takes the `ERROR_INVALID_INPUT` / "Not connected" branch. -/
theorem db_connection_stays_connected :
    (∀ (p : String) (c : db_connection), db_open (some p) = some c →
        c.connected = true) ∧
    (∀ conn : Option db_connection, db_close conn = none) ∧
    (∀ (c : db_connection) (sqls : List (Option String)), c.connected = true →
        (db_execute_seq c sqls).1.connected = true ∧
        ERROR_INVALID_INPUT ∉ (db_execute_seq c sqls).2) := by
  refine ⟨?_, fun conn => rfl, ?_⟩
  · intro p c hp
    simp only [db_open, Option.some.injEq] at hp
    rw [← hp]
  · intro c sqls
    induction sqls generalizing c with
    | nil =>
      intro hc
      exact ⟨hc, by simp [db_execute_seq]⟩
    | cons sql rest ih =>
      intro hc
      rcases db_execute_preserves_connected c sql hc with ⟨c', code, hstep, hc', hcode⟩
      simp only [db_execute_seq, hstep, Option.getD_some]
      refine ⟨(ih c' hc').1, ?_⟩
      simp only [List.mem_cons, not_or]
      exact ⟨fun hco => hcode hco.symm, (ih c' hc').2⟩

/-- Claim C10: `register_managed_callback` performs no NULL check on the
callback: on any table with a free slot (and the handle counter at least 1,
as it is from start-up on), registering a NULL callback still succeeds,
returns the fresh positive handle, and stores the NULL callback in the slot —
whereas `register_simple_callback` and `register_callback_with_data` silently
drop a NULL callback. -/
theorem register_managed_callback_accepts_null (s : ManagedRegistry)
    (ud : Option Nat)
    (hfree : ∃ slot ∈ s.managed_callbacks, slot.active = false)
    (hpos : 1 ≤ s.next_handle) :
    (register_managed_callback s none ud).2 = some s.next_handle ∧
    1 ≤ register_managed_callback_ret s none ud ∧
    (∃ slot ∈ (register_managed_callback s none ud).1.managed_callbacks,
        slot.active = true ∧ slot.handle = s.next_handle ∧
        slot.callback = none) ∧
    (∀ cbs : List (Option Nat), register_simple_callback cbs none = cbs) ∧
    (∀ (entries : List callback_entry_t) (ud2 : Option Nat),
        register_callback_with_data entries none ud2 = entries) := by
  rcases regFill_of_exists_inactive s.next_handle none ud s.managed_callbacks hfree
    with ⟨slots', hr, hmem⟩
  have hslots : (register_managed_callback s none ud).1.managed_callbacks = slots' := by
    simp [register_managed_callback, hr]
  refine ⟨?_, ?_, ?_, ?_, ?_⟩
  · simp [register_managed_callback, hr]
  · simp only [register_managed_callback_ret, register_managed_callback, hr,
      Option.getD_some]
    exact hpos
  · refine ⟨{ handle := s.next_handle, callback := none, user_data := ud,
              active := true }, ?_, rfl, rfl, rfl⟩
    rw [hslots]
    exact hmem
  · intro cbs
    simp [register_simple_callback]
  · intro entries ud2
    simp [register_callback_with_data]

/-- Witness for C10: from the initial state, registering a NULL callback
succeeds with handle 1 and stores the NULL callback, while the simple and
with-data registries drop it. -/
theorem register_managed_callback_accepts_null_witness :
    (register_managed_callback initialRegistry none (some 3)).2 =
      some initialRegistry.next_handle ∧
    1 ≤ register_managed_callback_ret initialRegistry none (some 3) ∧
    (∃ slot ∈ (register_managed_callback initialRegistry
        none (some 3)).1.managed_callbacks,
        slot.active = true ∧ slot.handle = initialRegistry.next_handle ∧
        slot.callback = none) ∧
    (∀ cbs : List (Option Nat), register_simple_callback cbs none = cbs) ∧
    (∀ (entries : List callback_entry_t) (ud2 : Option Nat),
        register_callback_with_data entries none ud2 = entries) :=
  register_managed_callback_accepts_null initialRegistry (some 3)
    (by decide) (by decide)

end Mylib
